import Mathlib

/-!
Verification of the email batch tool's send pipeline.

This file shallowly embeds the core of `src/email_batch_tool` in Lean:

* `load_recipients` (main.py) — recipient-file parsing with JSON fallback;
* `authenticate`, `is_token_expired`, `send_email`
  (utils/email_sender.py, class OutlookEmailSender) — the credential
  session and delivery client.  External effects (the MSAL token
  exchange, the HTTP POST, JSON decoding of an error body) are passed in
  as explicit outcome values, so each possible runtime behaviour of the
  Python code corresponds to one choice of these oracle arguments;
* `sanitize_html`, `extract_inline_images` (same file) — the markup
  preprocessor, over an explicit HTML node tree standing for the
  BeautifulSoup document (the parser itself is external; a parse result
  or parse failure is an input);
* `send_batch` (utils/email_sender.py, class BatchEmailProcessor) — the
  batch scheduling loop.  The per-call boolean result of
  `send_email` is abstracted as an oracle `send : Nat → Nat → Bool`
  (recipient index → 0-based attempt number → outcome), the
  `random.randint(min_delay, max_delay)` draws as `rand : Nat → Int`,
  and `datetime.now().isoformat()` as `clock : Nat → String`.
  Waits (`time.sleep`) are recorded as events rather than performed.

Time is modelled in seconds as `Int`; `timedelta(minutes=m)` is `m * 60`.
-/

/-! ## Python string helpers -/

/-- ASCII whitespace recognised by Python `str.strip()`. -/
def isPySpace (c : Char) : Bool :=
  c = ' ' || c = '\t' || c = '\n' || c = '\r' || c = '\x0b' || c = '\x0c'

/-- Python `str.strip()` (ASCII whitespace). -/
def pyStrip (s : String) : String :=
  String.mk (((s.toList.dropWhile isPySpace).reverse.dropWhile isPySpace).reverse)

/-- Worker for `pySplit`: accumulates the current field in reverse. -/
def pySplitAux (sep : Char) : List Char → List Char → List String
  | [], acc => [String.mk acc.reverse]
  | c :: rest, acc =>
    if c = sep then String.mk acc.reverse :: pySplitAux sep rest []
    else pySplitAux sep rest (c :: acc)

/-- Python `str.split(sep)` for a single-character separator:
`"a\nb".split('\n') = ["a","b"]`, `"".split('\n') = [""]`. -/
def pySplit (s : String) (sep : Char) : List String :=
  pySplitAux sep s.toList []

/-- Python `s.startswith(pre)`. -/
def pyStartsWith (s pre : String) : Bool :=
  decide (s.toList.take pre.toList.length = pre.toList)

/-- Python `src.split('/')[-1]` (the split list is never empty). -/
def pyBasename (s : String) : String :=
  (pySplit s '/').getLastD ""

/-! ## load_recipients (main.py, lines 20–31)

`json.loads` is external; its outcome on the (stripped) content is
passed in: `decodeError` for a `json.JSONDecodeError`, `notList` for a
successful parse whose value is not a Python list, and `isList es` for a
parse yielding a list whose elements, converted by Python `str(...)`,
are `es`.  The Python function has no `return` on the `notList` path —
it falls off the end of the function and yields `None` — which the
`Option` result captures: `none` is Python `None`. -/

inductive JsonParse where
  | decodeError : JsonParse
  | notList : JsonParse
  | isList (elems : List String) : JsonParse
deriving DecidableEq, Repr

/-- Embedding of `load_recipients` applied to the raw file content and
the outcome of `json.loads` on the stripped content. -/
def load_recipients (content : String) (parsed : JsonParse) : Option (List String) :=
  let c := pyStrip content
  match parsed with
  | .isList es => some ((es.map pyStrip).filter (fun e => decide (¬ e = "")))
  | .notList => none
  | .decodeError =>
      some (((pySplit c '\n').map pyStrip).filter (fun l => decide (¬ l = "")))

/-! ## Credential session (email_sender.py, lines 36–98) -/

/-- Mutable state of an `OutlookEmailSender` instance.  `access_token`
and `token_expires_at` start as `None`; expiry is an absolute time in
seconds. -/
structure SenderState where
  tenant_id : String
  client_id : String
  client_secret : String
  shared_mailbox : String
  access_token : Option String
  token_expires_at : Option Int
deriving DecidableEq, Repr

/-- Outcome of the external MSAL `acquire_token_for_client` exchange:
a token in the result dict, a result without `access_token`, or an
exception during the exchange. -/
inductive AuthOutcome where
  | ok (token : String)
  | noToken
  | exn
deriving DecidableEq, Repr

/-- Embedding of `OutlookEmailSender.authenticate` (lines 55–85) at
current time `now`, with the token-exchange outcome `res`.  On success
it stores the token and sets expiry to now + 55 minutes; on the
no-token path and on an exception it returns `False` having assigned
nothing. -/
def authenticate (st : SenderState) (now : Int) (res : AuthOutcome) : Bool × SenderState :=
  match res with
  | .ok t =>
    (true, { st with access_token := some t, token_expires_at := some (now + 55 * 60) })
  | .noToken => (false, st)
  | .exn => (false, st)

/-- Python truthiness test `not self.access_token`: true for `None` and
for the empty string. -/
def tokenMissing : Option String → Bool
  | none => true
  | some s => decide (s = "")

/-- Embedding of `OutlookEmailSender.is_token_expired` (lines 87–98):
true when no token or no expiry is held, or when
`now ≥ expiry - 5 minutes`. -/
def is_token_expired (st : SenderState) (now : Int) : Bool :=
  if tokenMissing st.access_token then true
  else
    match st.token_expires_at with
    | none => true
    | some exp => decide (now ≥ exp - 5 * 60)

/-- The guard opening `send_email` (line 115):
`not self.access_token or self.is_token_expired()`. -/
def needsAuth (st : SenderState) (now : Int) : Bool :=
  tokenMissing st.access_token || is_token_expired st now

/-! ## Delivery client: send_email (email_sender.py, lines 100–189) -/

/-- What the 401-handling code (lines 167–169) observes about a 401
response body: `response.json()["error"]["code"]` equal to
`"InvalidAuthenticationToken"`; any other body shape that evaluates the
condition to false; or the body access itself raising (non-JSON body,
missing key), which the enclosing `except` turns into `False`. -/
inductive Resp401Check where
  | invalidToken
  | notInvalid
  | raises
deriving DecidableEq, Repr

/-- Outcome of one `requests.post` call: a response with an HTTP status
code (and, consulted only when the status is 401, the error-body
observation), or a transport-level exception. -/
inductive HttpOutcome where
  | resp (status : Nat) (check : Resp401Check)
  | exn
deriving DecidableEq, Repr

/-- Observable result of one `send_email` call: the boolean return
value, the sender state after the call, how many `authenticate()` calls
happened in the pre-request phase and in the 401-retry phase, and the
bearer tokens used by the issued `requests.post` calls, in order. -/
structure SendOutcome where
  ok : Bool
  state : SenderState
  preAuths : Nat
  reAuths : Nat
  tokensUsed : List String
deriving DecidableEq, Repr

/-- Lines 161–189 of `send_email`: issue the request, handle the
specific 401 `InvalidAuthenticationToken` case by re-authenticating and
reissuing exactly once, then test for HTTP 202. -/
def sendCore (st : SenderState) (now : Int) (req1 : HttpOutcome) (reAuth : AuthOutcome)
    (req2 : HttpOutcome) (pre : Nat) : SendOutcome :=
  let tok1 := st.access_token.getD ""
  match req1 with
  | .exn => ⟨false, st, pre, 0, [tok1]⟩
  | .resp status check =>
    if status = 401 then
      match check with
      | .raises => ⟨false, st, pre, 0, [tok1]⟩
      | .notInvalid => ⟨false, st, pre, 0, [tok1]⟩
      | .invalidToken =>
        let r := authenticate st now reAuth
        if r.1 then
          let tok2 := r.2.access_token.getD ""
          match req2 with
          | .exn => ⟨false, r.2, pre, 1, [tok1, tok2]⟩
          | .resp s2 _ => ⟨decide (s2 = 202), r.2, pre, 1, [tok1, tok2]⟩
        else ⟨false, r.2, pre, 1, [tok1]⟩
    else ⟨decide (status = 202), st, pre, 0, [tok1]⟩

/-- Embedding of `OutlookEmailSender.send_email` (lines 100–189).
`preAuth` is the token-exchange outcome consumed if the pre-request
authentication runs, `req1` the first `requests.post`, `reAuth` the
re-authentication outcome consumed on the invalid-token path, and
`req2` the reissued `requests.post` consumed when the re-authentication
succeeds.  The message construction (lines 121–159) has no effect on
the returned boolean and is not modelled. -/
def send_email (st : SenderState) (now : Int) (preAuth : AuthOutcome) (req1 : HttpOutcome)
    (reAuth : AuthOutcome) (req2 : HttpOutcome) : SendOutcome :=
  if needsAuth st now then
    let a := authenticate st now preAuth
    if a.1 then sendCore a.2 now req1 reAuth req2 1
    else ⟨false, a.2, 1, 0, []⟩
  else sendCore st now req1 reAuth req2 0

/-! ## Markup preprocessor (email_sender.py, lines 191–318)

The BeautifulSoup document is modelled as a list of nodes; an element
carries its tag name, attribute list and children.  `str(soup)` is the
structural serialization `serializeHtmlList`. -/

inductive Html where
  | elem (name : String) (attrs : List (String × String)) (children : List Html)
  | text (s : String)
deriving Repr

/-- The tag filter of `soup(["script", "style"])`. -/
def isScriptOrStyle (n : String) : Bool :=
  n = "script" || n = "style"

/-- The decompose loop of `sanitize_html` (lines 311–312): every script
and style element, at any depth, is removed together with its whole
subtree. -/
def decomposeScriptStyle : List Html → List Html
  | [] => []
  | .text s :: rest => .text s :: decomposeScriptStyle rest
  | .elem n a c :: rest =>
    if isScriptOrStyle n then decomposeScriptStyle rest
    else .elem n a (decomposeScriptStyle c) :: decomposeScriptStyle rest

/-- Whether a document contains an element with tag `t`, at any depth. -/
def containsTag (t : String) : List Html → Bool
  | [] => false
  | .text _ :: rest => containsTag t rest
  | .elem n _ c :: rest => n = t || containsTag t c || containsTag t rest

/-- Serialization of an attribute list. -/
def serializeAttrs : List (String × String) → String
  | [] => ""
  | (k, v) :: rest => " " ++ k ++ "=" ++ "\"" ++ v ++ "\"" ++ serializeAttrs rest

/-- Serialization of a document (`str(soup)`). -/
def serializeHtmlList : List Html → String
  | [] => ""
  | .text s :: rest => s ++ serializeHtmlList rest
  | .elem n a c :: rest =>
    "<" ++ n ++ serializeAttrs a ++ ">" ++ serializeHtmlList c ++ "</" ++ n ++ ">" ++
      serializeHtmlList rest

/-- Embedding of `OutlookEmailSender.sanitize_html` (lines 297–318).
`parsed` is the outcome of the external html5lib parse of the input:
`none` when parsing raised (the `except` path returns the original
input unchanged), `some doc` otherwise. -/
def sanitize_html (input : String) (parsed : Option (List Html)) : String :=
  match parsed with
  | none => input
  | some doc => serializeHtmlList (decomposeScriptStyle doc)

/-- Attachment dictionary built by `extract_inline_images`
(lines 219–226 and 272–279); `odata_type` stands for the
`"@odata.type"` key. -/
structure Attachment where
  odata_type : String
  name : String
  contentType : String
  contentBytes : String
  isInline : Bool
  contentId : String
deriving DecidableEq, Repr

/-- The regex match of line 211,
`re.match(r'data:(image/[^;]+);base64,(.*)', src)`: the source must
start with `data:image/`, the MIME subtype is the nonempty run up to
the first `;`, which must open the literal `;base64,`; the payload
group `(.*)` extends to the end of the line (`.` does not match a
newline).  Returns the two captured groups (full MIME type, payload). -/
def parseDataUri (src : String) : Option (String × String) :=
  if pyStartsWith src "data:image/" then
    let rest := src.toList.drop ("data:image/".toList.length)
    let m := rest.takeWhile (fun c => !(c = ';'))
    let r2 := rest.dropWhile (fun c => !(c = ';'))
    if !(m = []) && pyStartsWith (String.mk r2) ";base64," then
      some (String.mk ("image/".toList ++ m),
            String.mk ((r2.drop (";base64,".toList.length)).takeWhile (fun c => !(c = '\n'))))
    else none
  else none

/-- The attachment dictionary of lines 219–226 / 272–279 with content
identifier `image_<n>@example.com`. -/
def mkImageAttachment (n : Nat) (nm mime data : String) : Attachment :=
  { odata_type := "#microsoft.graph.fileAttachment"
    name := nm
    contentType := mime
    contentBytes := data
    isInline := true
    contentId := "image_" ++ toString n ++ "@example.com" }

/-- Per-element body of the `find_all('img', src=True)` loop
(lines 205–293), threading the attachment list.  `fsImg` abstracts the
local-file branch (lines 240–293): for a relative source it yields
`some (mimeType, base64Data)` when the resolved file exists and reading
succeeds, `none` when the file is missing or an exception is logged and
swallowed.  Returns the (possibly rewritten) `src` value and the new
attachment list. -/
def processImgSrc (fsImg : String → Option (String × String)) (atts : List Attachment)
    (src : String) : String × List Attachment :=
  if pyStartsWith src "data:" then
    match parseDataUri src with
    | some (mime, data) =>
      ("cid:" ++ ("image_" ++ toString (atts.length + 1) ++ "@example.com"),
       atts ++ [mkImageAttachment (atts.length + 1)
                  ("image_" ++ toString (atts.length + 1)) mime data])
    | none => (src, atts)
  else if pyStartsWith src "file://" || pyStartsWith src "/" then
    (src, atts)
  else if !(pyStartsWith src "http") && !(pyStartsWith src "cid:") then
    match fsImg src with
    | some (mime, data) =>
      ("cid:" ++ ("image_" ++ toString (atts.length + 1) ++ "@example.com"),
       atts ++ [mkImageAttachment (atts.length + 1) (pyBasename src) mime data])
    | none => (src, atts)
  else (src, atts)

/-- Attribute lookup on a tag (`img_tag['src']` exists iff this is
`some`). -/
def lookupAttr : List (String × String) → String → Option String
  | [], _ => none
  | (k, v) :: rest, key => if k = key then some v else lookupAttr rest key

/-- Attribute update (`img_tag['src'] = ...`). -/
def setAttr : List (String × String) → String → String → List (String × String)
  | [], _, _ => []
  | (k, v) :: rest, key, newV =>
    if k = key then (k, newV) :: rest else (k, v) :: setAttr rest key newV

/-- Document traversal of `extract_inline_images`: `find_all('img',
src=True)` yields every `img` element carrying a `src` attribute in
document order (pre-order); each is processed with the attachment list
accumulated so far. -/
def extract_inline_images_aux (fsImg : String → Option (String × String)) :
    List Html → List Attachment → List Html × List Attachment
  | [], atts => ([], atts)
  | .text s :: rest, atts =>
    let r := extract_inline_images_aux fsImg rest atts
    (.text s :: r.1, r.2)
  | .elem n a c :: rest, atts =>
    if n = "img" then
      match lookupAttr a "src" with
      | some src =>
        let p := processImgSrc fsImg atts src
        let rc := extract_inline_images_aux fsImg c p.2
        let rr := extract_inline_images_aux fsImg rest rc.2
        (.elem n (setAttr a "src" p.1) rc.1 :: rr.1, rr.2)
      | none =>
        let rc := extract_inline_images_aux fsImg c atts
        let rr := extract_inline_images_aux fsImg rest rc.2
        (.elem n a rc.1 :: rr.1, rr.2)
    else
      let rc := extract_inline_images_aux fsImg c atts
      let rr := extract_inline_images_aux fsImg rest rc.2
      (.elem n a rc.1 :: rr.1, rr.2)

/-- Embedding of `OutlookEmailSender.extract_inline_images`
(lines 191–295): returns the rewritten document and the attachment
list, starting from an empty list. -/
def extract_inline_images (fsImg : String → Option (String × String)) (doc : List Html) :
    List Html × List Attachment :=
  extract_inline_images_aux fsImg doc []

/-! ## Batch scheduler (email_sender.py, lines 321–417) -/

/-- The backoff delay of line 388: `min(60 * (2 ** attempt), 300)`. -/
def backoffDelay (attempt : Nat) : Nat :=
  min (60 * 2 ^ attempt) 300

/-- The per-recipient retry loop `for attempt in range(max_retries + 1)`
(lines 377–390), written with the number of retries still available as
fuel: `retryFrom send remaining attempt` runs attempts
`attempt, attempt + 1, …, attempt + remaining`.  A successful attempt
breaks out with no further wait; a failed attempt with retries left
records one backoff wait of `backoffDelay attempt` seconds before the
next attempt (`elif attempt < max_retries`, lines 384–390); the final
failed attempt records none.  Returns the success flag and the ordered
list of backoff waits. -/
def retryFrom (send : Nat → Bool) : Nat → Nat → Bool × List Nat
  | 0, a => if send a then (true, []) else (false, [])
  | r + 1, a =>
    if send a then (true, [])
    else
      let t := retryFrom send r (a + 1)
      (t.1, backoffDelay a :: t.2)

/-- One recipient's full attempt sequence: attempts `0 … maxRetries`. -/
def tryRecipient (send : Nat → Bool) (maxRetries : Nat) : Bool × List Nat :=
  retryFrom send maxRetries 0

/-- One record of the `details` list (lines 396–407). -/
structure Detail where
  timestamp : String
  recipient : String
  status : String
deriving DecidableEq, Repr

/-- The `results` dict of lines 359–365. -/
structure BatchSummary where
  total : Nat
  sent : Nat
  failed : Nat
  skipped : Nat
  details : List Detail
deriving DecidableEq, Repr

/-- Observable waiting events of `send_batch`: a backoff wait inside
recipient `recip`'s retry loop, or the inter-recipient wait issued
after recipient `afterRecip` (line 410–414). -/
inductive BatchEv where
  | backoff (recip : Nat) (secs : Nat)
  | inter (afterRecip : Nat) (secs : Int)
deriving DecidableEq, Repr

/-- Projection selecting the inter-recipient waits of a trace. -/
def interOf : BatchEv → Option (Nat × Int)
  | .inter j d => some (j, d)
  | _ => none

/-- The `for i, recipient in enumerate(recipients)` loop of
`send_batch` (lines 372–414): each recipient runs the retry loop, a
detail record is appended and the matching counter bumped, and — except
after the last recipient — one inter-recipient wait of `rand i` seconds
(`random.randint(min_delay, max_delay)`) is issued.  Returns the final
summary and the ordered wait trace. -/
def sendBatchAux (send : Nat → Nat → Bool) (rand : Nat → Int) (clock : Nat → String)
    (maxRetries : Nat) : Nat → List String → BatchSummary → BatchSummary × List BatchEv
  | _, [], acc => (acc, [])
  | i, r :: rest, acc =>
    let t := tryRecipient (send i) maxRetries
    let acc' :=
      if t.1 then
        { acc with sent := acc.sent + 1,
                   details := acc.details ++ [⟨clock i, r, "success"⟩] }
      else
        { acc with failed := acc.failed + 1,
                   details := acc.details ++ [⟨clock i, r, "failed"⟩] }
    let interEvs := if rest.isEmpty then [] else [BatchEv.inter i (rand i)]
    let res := sendBatchAux send rand clock maxRetries (i + 1) rest acc'
    (res.1, t.2.map (BatchEv.backoff i) ++ interEvs ++ res.2)

/-- Embedding of `BatchEmailProcessor.send_batch` (lines 335–417).  The
one-time template preprocessing (lines 354–357) is modelled by
`sanitize_html` and `extract_inline_images` above and does not affect
the loop; `minDelay` and `maxDelay` reach the loop only through the
`random.randint` draws abstracted by `rand`, constrained in the
theorems by the `randint` contract `minDelay ≤ rand i ≤ maxDelay`. -/
def send_batch (send : Nat → Nat → Bool) (rand : Nat → Int) (clock : Nat → String)
    (recipients : List String) (minDelay maxDelay : Int) (maxRetries : Nat) :
    BatchSummary × List BatchEv :=
  sendBatchAux send rand clock maxRetries 0 recipients
    ⟨recipients.length, 0, 0, 0, []⟩

/-! ## Helper lemmas -/

/-- A successful `authenticate` stores a nonempty-or-given token;
projections of the updated state. -/
theorem authenticate_ok_state (st : SenderState) (now : Int) (t : String) :
    authenticate st now (.ok t) =
      (true, { st with access_token := some t, token_expires_at := some (now + 55 * 60) }) := by
  simp [authenticate]

/-- `sendCore` returns `true` exactly when the request that ends the
call — the reissued one when the invalid-token path ran, the first one
otherwise — carries HTTP status 202. -/
theorem sendCore_ok_iff (st : SenderState) (now : Int) (req1 : HttpOutcome)
    (reAuth : AuthOutcome) (req2 : HttpOutcome) (pre : Nat) :
    (sendCore st now req1 reAuth req2 pre).ok = true ↔
      ((∃ c, req1 = .resp 202 c) ∨
       (req1 = .resp 401 .invalidToken ∧ (∃ t, reAuth = .ok t) ∧ ∃ c, req2 = .resp 202 c)) := by
  cases req1 with
  | exn => simp [sendCore]
  | resp status check =>
    by_cases h401 : status = 401
    · subst h401
      cases check with
      | raises => simp [sendCore]
      | notInvalid => simp [sendCore]
      | invalidToken =>
        cases reAuth with
        | ok t =>
          cases req2 with
          | exn => simp [sendCore, authenticate]
          | resp s2 c2 => simp [sendCore, authenticate]
        | noToken => simp [sendCore, authenticate]
        | exn => simp [sendCore, authenticate]
    · simp [sendCore, if_neg h401, h401]

/-- If the first success comes at attempt `a + m` and at least `m`
retries remain, the loop succeeds after exactly `m` backoff waits with
the scheduled durations. -/
theorem retryFrom_success (send : Nat → Bool) :
    ∀ (m r a : Nat), m ≤ r →
      (∀ j, a ≤ j → j < a + m → send j = false) → send (a + m) = true →
      retryFrom send r a = (true, (List.range m).map (fun i => backoffDelay (a + i))) := by
  intro m
  induction m with
  | zero =>
    intro r a _ _ hs
    cases r <;> simp [retryFrom, Nat.add_zero] at hs ⊢ <;> simp [hs]
  | succ m ih =>
    intro r a hm hf hs
    obtain ⟨r', rfl⟩ : ∃ r', r = r' + 1 := ⟨r - 1, by omega⟩
    have ha : send a = false := hf a (Nat.le_refl a) (by omega)
    have hrec : retryFrom send r' (a + 1) =
        (true, (List.range m).map (fun i => backoffDelay (a + 1 + i))) := by
      refine ih r' (a + 1) (by omega) (fun j hj1 hj2 => hf j (by omega) (by omega)) ?_
      have : a + 1 + m = a + (m + 1) := by omega
      rw [this]; exact hs
    have harith : ∀ i, a + 1 + i = a + (i + 1) := fun i => by omega
    simp [retryFrom, ha, hrec, List.range_succ_eq_map, List.map_map, Function.comp,
      Nat.succ_eq_add_one, harith]

/-- If every attempt from `a` through `a + r` fails, the loop fails
after exactly `r` backoff waits with the scheduled durations. -/
theorem retryFrom_failure (send : Nat → Bool) :
    ∀ (r a : Nat), (∀ j, a ≤ j → j ≤ a + r → send j = false) →
      retryFrom send r a = (false, (List.range r).map (fun i => backoffDelay (a + i))) := by
  intro r
  induction r with
  | zero =>
    intro a hf
    simp [retryFrom, hf a (Nat.le_refl a) (by omega)]
  | succ r ih =>
    intro a hf
    have ha : send a = false := hf a (Nat.le_refl a) (by omega)
    have hrec := ih (a + 1) (fun j hj1 hj2 => hf j (by omega) (by omega))
    have harith : ∀ i, a + 1 + i = a + (i + 1) := fun i => by omega
    simp [retryFrom, ha, hrec, List.range_succ_eq_map, List.map_map, Function.comp,
      Nat.succ_eq_add_one, harith]

/-- A first-attempt success produces no backoff wait at all. -/
theorem tryRecipient_first_success (send : Nat → Bool) (maxRetries : Nat)
    (h : send 0 = true) : tryRecipient send maxRetries = (true, []) := by
  have := retryFrom_success send 0 maxRetries 0 (Nat.zero_le _) (by omega) (by simpa using h)
  simpa [tryRecipient] using this

/-- Backoff events never contribute inter-recipient waits. -/
theorem filterMap_interOf_backoffs (i : Nat) (ws : List Nat) :
    List.filterMap interOf (ws.map (BatchEv.backoff i)) = [] := by
  induction ws with
  | nil => simp
  | cons w ws ih => simp [interOf, ih]

/-- Composed form of the previous lemma, as produced by
`List.filterMap_map`. -/
theorem filterMap_interOf_comp_backoff (i : Nat) (ws : List Nat) :
    List.filterMap (interOf ∘ BatchEv.backoff i) ws = [] := by
  induction ws with
  | nil => simp
  | cons w ws ih => simp [interOf, ih]

/-- One unfolding step of the scheduling loop on a nonempty recipient
list. -/
theorem sendBatchAux_cons_eq (send : Nat → Nat → Bool) (rand : Nat → Int)
    (clock : Nat → String) (maxRetries i : Nat) (r : String) (rest : List String)
    (acc : BatchSummary) :
    sendBatchAux send rand clock maxRetries i (r :: rest) acc =
      ((sendBatchAux send rand clock maxRetries (i + 1) rest
          (if (tryRecipient (send i) maxRetries).1 then
            { acc with sent := acc.sent + 1,
                       details := acc.details ++ [⟨clock i, r, "success"⟩] }
           else
            { acc with failed := acc.failed + 1,
                       details := acc.details ++ [⟨clock i, r, "failed"⟩] })).1,
       (tryRecipient (send i) maxRetries).2.map (BatchEv.backoff i) ++
         (if rest.isEmpty then [] else [BatchEv.inter i (rand i)]) ++
         (sendBatchAux send rand clock maxRetries (i + 1) rest
           (if (tryRecipient (send i) maxRetries).1 then
             { acc with sent := acc.sent + 1,
                        details := acc.details ++ [⟨clock i, r, "success"⟩] }
            else
             { acc with failed := acc.failed + 1,
                        details := acc.details ++ [⟨clock i, r, "failed"⟩] })).2) := rfl

/-- Summary components of the scheduling loop: `total` and `skipped`
are never touched, each recipient adds exactly one to `sent + failed`,
and the detail list extends, in order, with one record per recipient
whose status reflects the outcome of its retry loop. -/
theorem sendBatchAux_spec (send : Nat → Nat → Bool) (rand : Nat → Int) (clock : Nat → String)
    (maxRetries : Nat) :
    ∀ (rs : List String) (i : Nat) (acc : BatchSummary),
      (sendBatchAux send rand clock maxRetries i rs acc).1.total = acc.total ∧
      (sendBatchAux send rand clock maxRetries i rs acc).1.skipped = acc.skipped ∧
      (sendBatchAux send rand clock maxRetries i rs acc).1.sent +
          (sendBatchAux send rand clock maxRetries i rs acc).1.failed =
        acc.sent + acc.failed + rs.length ∧
      (sendBatchAux send rand clock maxRetries i rs acc).1.details =
        acc.details ++ (List.enumFrom i rs).map (fun p =>
          ⟨clock p.1, p.2,
            if (tryRecipient (send p.1) maxRetries).1 then "success" else "failed"⟩) := by
  intro rs
  induction rs with
  | nil => intro i acc; simp [sendBatchAux]
  | cons r rest ih =>
    intro i acc
    rw [sendBatchAux_cons_eq]
    by_cases h : (tryRecipient (send i) maxRetries).1 = true
    · obtain ⟨h1, h2, h3, h4⟩ := ih (i + 1)
        { acc with sent := acc.sent + 1,
                   details := acc.details ++ [⟨clock i, r, "success"⟩] }
      simp only [h, if_true]
      refine ⟨by simpa using h1, by simpa using h2, ?_, ?_⟩
      · simp only [BatchSummary.mk.injEq] at h3
        simp at h3 ⊢
        omega
      · rw [h4]
        simp [List.enumFrom_cons, h, List.append_assoc]
    · have hb : (tryRecipient (send i) maxRetries).1 = false := by
        simpa using h
      obtain ⟨h1, h2, h3, h4⟩ := ih (i + 1)
        { acc with failed := acc.failed + 1,
                   details := acc.details ++ [⟨clock i, r, "failed"⟩] }
      simp only [hb, Bool.false_eq_true, if_false]
      refine ⟨by simpa using h1, by simpa using h2, ?_, ?_⟩
      · simp at h3 ⊢
        omega
      · rw [h4]
        simp [List.enumFrom_cons, hb, List.append_assoc]

/-- The inter-recipient waits of the scheduling loop, in order: one
draw `rand j` recorded after recipient `j`, for every position `j`
except the last recipient. -/
theorem sendBatchAux_inters (send : Nat → Nat → Bool) (rand : Nat → Int) (clock : Nat → String)
    (maxRetries : Nat) :
    ∀ (rs : List String) (i : Nat) (acc : BatchSummary),
      List.filterMap interOf (sendBatchAux send rand clock maxRetries i rs acc).2 =
        (List.range (rs.length - 1)).map (fun j => (i + j, rand (i + j))) := by
  intro rs
  induction rs with
  | nil => intro i acc; simp [sendBatchAux]
  | cons r rest ih =>
    intro i acc
    rw [sendBatchAux_cons_eq]
    cases rest with
    | nil =>
      simp [sendBatchAux, List.filterMap_append, List.filterMap_map,
        filterMap_interOf_comp_backoff]
    | cons r2 rest' =>
      have harith : ∀ j, i + 1 + j = i + (j + 1) := fun j => by omega
      simp only [List.filterMap_append, List.filterMap_map,
        filterMap_interOf_comp_backoff, ih (i + 1)]
      simp [interOf, List.range_succ_eq_map, List.map_map, Function.comp,
        Nat.succ_eq_add_one, harith]

/-- After the decompose loop no element with a filtered tag remains, at
any depth. -/
theorem containsTag_decompose (t : String) (ht : isScriptOrStyle t = true) :
    ∀ l, containsTag t (decomposeScriptStyle l) = false
  | [] => by simp [decomposeScriptStyle, containsTag]
  | .text s :: rest => by
    simp [decomposeScriptStyle, containsTag]
    exact containsTag_decompose t ht rest
  | .elem n a c :: rest => by
    by_cases h : isScriptOrStyle n = true
    · simp [decomposeScriptStyle, h]
      exact containsTag_decompose t ht rest
    · have hn : n ≠ t := by
        intro he
        rw [he] at h
        exact h ht
      simp [decomposeScriptStyle, h, containsTag, hn,
        containsTag_decompose t ht c, containsTag_decompose t ht rest]

/-- The decompose loop touches nothing in a document already free of
script and style elements. -/
theorem decompose_id_of_clean :
    ∀ l, containsTag "script" l = false → containsTag "style" l = false →
      decomposeScriptStyle l = l
  | [] => by intro _ _; simp [decomposeScriptStyle]
  | .text s :: rest => by
    intro h1 h2
    simp only [containsTag] at h1 h2
    simp only [decomposeScriptStyle]
    rw [decompose_id_of_clean rest h1 h2]
  | .elem n a c :: rest => by
    intro h1 h2
    simp only [containsTag, Bool.or_eq_false_iff, decide_eq_false_iff_not] at h1 h2
    obtain ⟨⟨hn1, hc1⟩, hr1⟩ := h1
    obtain ⟨⟨hn2, hc2⟩, hr2⟩ := h2
    have hn : isScriptOrStyle n = false := by simp [isScriptOrStyle, hn1, hn2]
    simp only [decomposeScriptStyle, hn, Bool.false_eq_true, if_false]
    rw [decompose_id_of_clean c hc1 hc2, decompose_id_of_clean rest hr1 hr2]

/-- A source accepted by the data-URI regex in particular starts with
`data:`, so the data branch of the img loop is the one taken. -/
theorem pyStartsWith_data_of_parse {src mime data : String}
    (h : parseDataUri src = some (mime, data)) : pyStartsWith src "data:" = true := by
  have h11 : pyStartsWith src "data:image/" = true := by
    by_contra hc
    have hb : pyStartsWith src "data:image/" = false := by simpa using hc
    simp [parseDataUri, hb] at h
  have ht : src.toList.take ("data:image/".toList.length) = "data:image/".toList :=
    of_decide_eq_true (by simpa [pyStartsWith] using h11)
  have hlen : ("data:image/".toList.length) = 11 := rfl
  rw [hlen] at ht
  have ht5 : src.toList.take 5 = "data:".toList := by
    have h2 := congrArg (List.take 5) ht
    rw [List.take_take] at h2
    have hmin : (5 : Nat) ⊓ 11 = 5 := rfl
    rw [hmin] at h2
    have hr : List.take 5 ("data:image/".toList) = "data:".toList := rfl
    rw [hr] at h2
    exact h2
  have hlen5 : ("data:".toList.length) = 5 := rfl
  simp only [pyStartsWith, hlen5]
  exact decide_eq_true ht5

/-! ## Claim theorems -/

/-- C1: for every recipient list of length N (and any oracles for send
outcomes, random delays and timestamps), `send_batch` returns a summary
with `total = N`, `sent + failed = N = total`, `skipped = 0`, and a
detail list of exactly N records whose recipient fields are the input
list in order, each with status `success` or `failed`; no failure stops
later recipients from being processed and recorded, since these
equalities hold for every send oracle. -/
theorem send_batch_summary_invariants (send : Nat → Nat → Bool) (rand : Nat → Int)
    (clock : Nat → String) (recipients : List String) (minDelay maxDelay : Int)
    (maxRetries : Nat) :
    (send_batch send rand clock recipients minDelay maxDelay maxRetries).1.total =
        recipients.length ∧
    (send_batch send rand clock recipients minDelay maxDelay maxRetries).1.sent +
        (send_batch send rand clock recipients minDelay maxDelay maxRetries).1.failed =
      (send_batch send rand clock recipients minDelay maxDelay maxRetries).1.total ∧
    (send_batch send rand clock recipients minDelay maxDelay maxRetries).1.skipped = 0 ∧
    (send_batch send rand clock recipients minDelay maxDelay maxRetries).1.details.map
        Detail.recipient = recipients ∧
    (send_batch send rand clock recipients minDelay maxDelay maxRetries).1.details.length =
      recipients.length ∧
    (send_batch send rand clock recipients minDelay maxDelay maxRetries).1.details.all
        (fun d => d.status = "success" || d.status = "failed") = true := by
  obtain ⟨h1, h2, h3, h4⟩ := sendBatchAux_spec send rand clock maxRetries recipients 0
    ⟨recipients.length, 0, 0, 0, []⟩
  have ht : (send_batch send rand clock recipients minDelay maxDelay maxRetries).1.total =
      recipients.length := by simpa [send_batch] using h1
  have hsk : (send_batch send rand clock recipients minDelay maxDelay maxRetries).1.skipped =
      0 := by simpa [send_batch] using h2
  have hc : (send_batch send rand clock recipients minDelay maxDelay maxRetries).1.sent +
      (send_batch send rand clock recipients minDelay maxDelay maxRetries).1.failed =
      recipients.length := by simpa [send_batch] using h3
  have hd : (send_batch send rand clock recipients minDelay maxDelay maxRetries).1.details =
      (List.enumFrom 0 recipients).map (fun p =>
        ⟨clock p.1, p.2,
          if (tryRecipient (send p.1) maxRetries).1 then "success" else "failed"⟩) := by
    simpa [send_batch] using h4
  refine ⟨ht, by rw [ht]; exact hc, hsk, ?_, ?_, ?_⟩
  · rw [hd, List.map_map]
    have hcomp : (Detail.recipient ∘ fun p : Nat × String =>
        (⟨clock p.1, p.2,
          if (tryRecipient (send p.1) maxRetries).1 then "success" else "failed"⟩ : Detail)) =
        Prod.snd := by
      funext p
      rfl
    rw [hcomp]
    exact List.enumFrom_map_snd 0 recipients
  · simp [hd]
  · rw [hd, List.all_eq_true]
    intro d hdm
    simp only [List.mem_map] at hdm
    obtain ⟨p, -, rfl⟩ := hdm
    cases h : (tryRecipient (send p.1) maxRetries).1 <;> simp [h]

/-- C2: in `send_batch`, a recipient whose delivery first succeeds on
the k-th attempt (1 ≤ k ≤ maxRetries + 1) sees exactly k - 1 backoff
waits, none before the first attempt, the i-th lasting
`min(60 * 2 ^ (i - 1), 300)` seconds (60, 120, 240, then capped at
300); a recipient all of whose maxRetries + 1 attempts fail sees
exactly maxRetries such waits and is recorded with status `failed`. -/
theorem send_batch_backoff_schedule :
    (∀ (send : Nat → Bool) (maxRetries k : Nat),
        1 ≤ k → k ≤ maxRetries + 1 →
        (∀ j, j < k - 1 → send j = false) → send (k - 1) = true →
        tryRecipient send maxRetries =
          (true, (List.range (k - 1)).map (fun i => min (60 * 2 ^ i) 300))) ∧
    (∀ (send : Nat → Bool) (maxRetries : Nat),
        (∀ j, j ≤ maxRetries → send j = false) →
        tryRecipient send maxRetries =
          (false, (List.range maxRetries).map (fun i => min (60 * 2 ^ i) 300))) ∧
    (∀ (send : Nat → Nat → Bool) (rand : Nat → Int) (clock : Nat → String)
        (recipients : List String) (minDelay maxDelay : Int) (maxRetries i : Nat) (r : String),
        recipients[i]? = some r →
        (∀ j, j ≤ maxRetries → send i j = false) →
        ((send_batch send rand clock recipients minDelay maxDelay maxRetries).1.details)[i]? =
          some ⟨clock i, r, "failed"⟩) := by
  refine ⟨?_, ?_, ?_⟩
  · intro send maxRetries k hk1 hk2 hf hs
    have h := retryFrom_success send (k - 1) maxRetries 0 (by omega)
      (fun j _ hj2 => hf j (by omega)) (by simpa using hs)
    simpa [tryRecipient, backoffDelay] using h
  · intro send maxRetries hf
    have h := retryFrom_failure send maxRetries 0 (fun j _ hj2 => hf j (by omega))
    simpa [tryRecipient, backoffDelay] using h
  · intro send rand clock recipients minDelay maxDelay maxRetries i r hget hf
    obtain ⟨-, -, -, h4⟩ := sendBatchAux_spec send rand clock maxRetries recipients 0
      ⟨recipients.length, 0, 0, 0, []⟩
    have hfail : (tryRecipient (send i) maxRetries).1 = false := by
      have h := retryFrom_failure (send i) maxRetries 0 (fun j _ hj2 => hf j (by omega))
      simp [tryRecipient, h]
    have hd : (send_batch send rand clock recipients minDelay maxDelay maxRetries).1.details =
        (List.enumFrom 0 recipients).map (fun p =>
          ⟨clock p.1, p.2,
            if (tryRecipient (send p.1) maxRetries).1 then "success" else "failed"⟩) := by
      simpa [send_batch] using h4
    rw [hd, List.getElem?_map, List.getElem?_enumFrom, hget]
    simp [hfail]

/-- C3: a batch over N ≥ 1 recipients with minDelay ≤ maxDelay issues
exactly N - 1 inter-recipient waits, tagged one after each recipient
except the last (whatever the send outcomes were), each within
[minDelay, maxDelay] whenever the `randint` draws respect their
contract. -/
theorem send_batch_inter_recipient_delays (send : Nat → Nat → Bool) (rand : Nat → Int)
    (clock : Nat → String) (recipients : List String) (minDelay maxDelay : Int)
    (maxRetries : Nat) (hN : 1 ≤ recipients.length) (hmm : minDelay ≤ maxDelay)
    (hr : ∀ i, minDelay ≤ rand i ∧ rand i ≤ maxDelay) :
    List.filterMap interOf
        (send_batch send rand clock recipients minDelay maxDelay maxRetries).2 =
      (List.range (recipients.length - 1)).map (fun j => (j, rand j)) ∧
    (List.filterMap interOf
        (send_batch send rand clock recipients minDelay maxDelay maxRetries).2).length =
      recipients.length - 1 ∧
    (List.filterMap interOf
        (send_batch send rand clock recipients minDelay maxDelay maxRetries).2).all
      (fun p => decide (minDelay ≤ p.2) && decide (p.2 ≤ maxDelay)) = true := by
  have h := sendBatchAux_inters send rand clock maxRetries recipients 0
    ⟨recipients.length, 0, 0, 0, []⟩
  have h0 : List.filterMap interOf
      (send_batch send rand clock recipients minDelay maxDelay maxRetries).2 =
      (List.range (recipients.length - 1)).map (fun j => (j, rand j)) := by
    simpa [send_batch] using h
  refine ⟨h0, by simp [h0], ?_⟩
  rw [h0, List.all_eq_true]
  intro p hp
  simp only [List.mem_map] at hp
  obtain ⟨j, -, rfl⟩ := hp
  have := hr j
  simp [this.1, this.2]

/-- C4: within one `send_email` call whose pre-request phase needs no
authentication, a first response of 401 with error code
`InvalidAuthenticationToken` triggers exactly one re-authentication;
when it succeeds the request is reissued exactly once, bearing the new
token; when it fails the call returns failure without reissuing.  No
other first outcome (any other 401, other statuses, or a transport
exception) triggers a re-authentication or a second request.  The
retry lives inside the single `send_email` call: the scheduler's retry
loop sees it as one attempt, so a first-attempt success consumes no
backoff wait of the `maxRetries` budget. -/
theorem send_email_invalid_token_single_retry :
    (∀ (st : SenderState) (now : Int) (preAuth reAuth : AuthOutcome) (req2 : HttpOutcome)
        (t0 : String),
        st.access_token = some t0 →
        needsAuth st now = false →
        (send_email st now preAuth (.resp 401 .invalidToken) reAuth req2).preAuths = 0 ∧
        (send_email st now preAuth (.resp 401 .invalidToken) reAuth req2).reAuths = 1 ∧
        (∀ t, reAuth = .ok t →
          (send_email st now preAuth (.resp 401 .invalidToken) reAuth req2).tokensUsed =
            [t0, t]) ∧
        ((reAuth = .noToken ∨ reAuth = .exn) →
          (send_email st now preAuth (.resp 401 .invalidToken) reAuth req2).ok = false ∧
          (send_email st now preAuth (.resp 401 .invalidToken) reAuth req2).tokensUsed =
            [t0])) ∧
    (∀ (st : SenderState) (now : Int) (preAuth reAuth : AuthOutcome)
        (req1 req2 : HttpOutcome),
        needsAuth st now = false →
        req1 ≠ .resp 401 .invalidToken →
        (send_email st now preAuth req1 reAuth req2).reAuths = 0 ∧
        (send_email st now preAuth req1 reAuth req2).tokensUsed.length = 1) ∧
    (∀ (send : Nat → Bool) (maxRetries : Nat),
        send 0 = true → tryRecipient send maxRetries = (true, [])) := by
  refine ⟨?_, ?_, ?_⟩
  · intro st now preAuth reAuth req2 t0 hst hna
    cases reAuth with
    | ok t =>
      cases req2 <;>
        simp [send_email, hna, sendCore, authenticate, hst]
    | noToken => simp [send_email, hna, sendCore, authenticate, hst]
    | exn => simp [send_email, hna, sendCore, authenticate, hst]
  · intro st now preAuth reAuth req1 req2 hna hne
    cases req1 with
    | exn => simp [send_email, hna, sendCore]
    | resp status check =>
      by_cases h401 : status = 401
      · subst h401
        cases check with
        | invalidToken => exact absurd rfl hne
        | notInvalid => simp [send_email, hna, sendCore]
        | raises => simp [send_email, hna, sendCore]
      · simp [send_email, hna, sendCore, h401]
  · intro send maxRetries h
    exact tryRecipient_first_success send maxRetries h

/-- C5: `send_email` never raises (the embedding is a total function on
all modelled runtime outcomes, exceptions included) and returns `true`
precisely when the request that ends the call — the reissued one when
the invalid-token path ran, the first one otherwise — got HTTP 202,
after a pre-request phase that did not fail; every other outcome yields
`false`. -/
theorem send_email_success_iff (st : SenderState) (now : Int) (preAuth : AuthOutcome)
    (req1 : HttpOutcome) (reAuth : AuthOutcome) (req2 : HttpOutcome) :
    (send_email st now preAuth req1 reAuth req2).ok = true ↔
      ((needsAuth st now = false ∨ (∃ t, preAuth = .ok t)) ∧
       ((∃ c, req1 = .resp 202 c) ∨
        (req1 = .resp 401 .invalidToken ∧ (∃ t, reAuth = .ok t) ∧
          ∃ c, req2 = .resp 202 c))) := by
  by_cases hna : needsAuth st now = true
  · cases preAuth with
    | ok t => simp [send_email, hna, authenticate, sendCore_ok_iff]
    | noToken => simp [send_email, hna, authenticate]
    | exn => simp [send_email, hna, authenticate]
  · have hna2 : needsAuth st now = false := by simpa using hna
    simp [send_email, hna2, sendCore_ok_iff]

/-- C6: `authenticate` is atomic on error — when it returns failure
(no token in the provider response, or an exception) the stored token
and expiry are exactly what they were before — and on success it stores
the provider's token with expiry `now + 55` minutes. -/
theorem authenticate_failure_atomic (st : SenderState) (now : Int) (res : AuthOutcome) :
    ((authenticate st now res).1 = false → (authenticate st now res).2 = st) ∧
    ((authenticate st now res).1 = true → ∃ t, res = .ok t ∧
      (authenticate st now res).2 =
        { st with access_token := some t, token_expires_at := some (now + 55 * 60) }) := by
  cases res <;> simp [authenticate]

/-- C7: `sanitize_html` never raises; on a parse failure it returns the
original input unchanged, and otherwise it serializes the parsed
document with every script and style element removed, all other
content retained (a document already free of them passes through
structurally unchanged); in particular the document parsed from
`<p>Hi</p><script>evil()</script>` sanitizes to markup with no script
element that still contains `<p>Hi</p>`. -/
theorem sanitize_html_removes_script_style :
    (∀ input, sanitize_html input none = input) ∧
    (∀ input doc,
        sanitize_html input (some doc) = serializeHtmlList (decomposeScriptStyle doc) ∧
        containsTag "script" (decomposeScriptStyle doc) = false ∧
        containsTag "style" (decomposeScriptStyle doc) = false ∧
        (containsTag "script" doc = false → containsTag "style" doc = false →
          decomposeScriptStyle doc = doc)) ∧
    sanitize_html "<p>Hi</p><script>evil()</script>"
        (some [.elem "p" [] [.text "Hi"], .elem "script" [] [.text "evil()"]]) =
      "<p>Hi</p>" := by
  refine ⟨fun input => rfl,
    fun input doc => ⟨rfl, containsTag_decompose "script" rfl doc,
      containsTag_decompose "style" rfl doc, decompose_id_of_clean doc⟩, ?_⟩
  simp [sanitize_html, decomposeScriptStyle, isScriptOrStyle, serializeHtmlList,
    serializeAttrs]

/-- C8: an img element whose source matches the base64 image data-URI
pattern is rewritten, when the attachment list built so far holds n - 1
entries, to the reference `cid:image_<n>@example.com`, and the n-th
attachment descriptor is appended with `contentId` exactly
`image_<n>@example.com` (character for character the rewritten
reference minus the `cid:` marker), the MIME type and base64 payload
taken from the URI, and the inline flag set; on the single-image
document of the scenario this yields one attachment
(`image/png`, `QUJD`) and the reference `cid:image_1@example.com`. -/
theorem extract_inline_images_data_uri :
    (∀ (fsImg : String → Option (String × String)) (atts : List Attachment)
        (src mime data : String),
        parseDataUri src = some (mime, data) →
        processImgSrc fsImg atts src =
          ("cid:" ++ ("image_" ++ toString (atts.length + 1) ++ "@example.com"),
           atts ++ [{ odata_type := "#microsoft.graph.fileAttachment"
                      name := "image_" ++ toString (atts.length + 1)
                      contentType := mime
                      contentBytes := data
                      isInline := true
                      contentId := "image_" ++ toString (atts.length + 1) ++
                        "@example.com" }])) ∧
    parseDataUri "data:image/png;base64,QUJD" = some ("image/png", "QUJD") ∧
    extract_inline_images (fun _ => none)
        [.elem "img" [("src", "data:image/png;base64,QUJD")] []] =
      ([.elem "img" [("src", "cid:image_1@example.com")] []],
       [{ odata_type := "#microsoft.graph.fileAttachment", name := "image_1",
          contentType := "image/png", contentBytes := "QUJD", isInline := true,
          contentId := "image_1@example.com" }]) := by
  refine ⟨?_, by decide, ?_⟩
  · intro fsImg atts src mime data h
    simp [processImgSrc, pyStartsWith_data_of_parse h, h, mkImageAttachment]
  · simp [extract_inline_images, extract_inline_images_aux, processImgSrc, parseDataUri,
      pyStartsWith, lookupAttr, setAttr, mkImageAttachment]
    decide

/-- C10: an img element whose source starts with `data:` but does not
match the `data:image/...;base64,...` pattern is left unmodified and
contributes no attachment, so it does not advance the
content-identifier numbering: in the two-image document below, the
non-image data URI is untouched and the following image still receives
`image_1`. -/
theorem extract_inline_images_skips_nonmatching_data_uri :
    (∀ (fsImg : String → Option (String × String)) (atts : List Attachment) (src : String),
        pyStartsWith src "data:" = true →
        parseDataUri src = none →
        processImgSrc fsImg atts src = (src, atts)) ∧
    extract_inline_images (fun _ => none)
        [.elem "img" [("src", "data:text/plain;base64,QUJD")] [],
         .elem "img" [("src", "data:image/png;base64,QUJD")] []] =
      ([.elem "img" [("src", "data:text/plain;base64,QUJD")] [],
        .elem "img" [("src", "cid:image_1@example.com")] []],
       [{ odata_type := "#microsoft.graph.fileAttachment", name := "image_1",
          contentType := "image/png", contentBytes := "QUJD", isInline := true,
          contentId := "image_1@example.com" }]) := by
  refine ⟨?_, ?_⟩
  · intro fsImg atts src hs hp
    simp [processImgSrc, hs, hp]
  · simp [extract_inline_images, extract_inline_images_aux, processImgSrc, parseDataUri,
      pyStartsWith, lookupAttr, setAttr, mkImageAttachment]
    decide

/-- C9 (refutation of the always-a-list claim): on content that parses
as JSON but is not a JSON array — such as a recipients file containing
just `42` — `load_recipients` falls off the end of the function and
returns Python `None`, not a line-split list; the line-splitting
fallback runs only on a `json.JSONDecodeError`, and the JSON-array path
does return a list. -/
theorem load_recipients_nonlist_json_returns_none :
    load_recipients "42" JsonParse.notList = none ∧
    load_recipients "a@x.com\nb@y.com" JsonParse.decodeError =
      some ["a@x.com", "b@y.com"] ∧
    load_recipients " [\"a@x.com\"] " (JsonParse.isList ["a@x.com"]) =
      some ["a@x.com"] := by
  refine ⟨rfl, by decide, by decide⟩

/-! ## Witnesses: the claim theorems applied at concrete inputs -/

/-- Witness for C1 at a concrete two-recipient batch. -/
theorem send_batch_summary_invariants_witness :
    (send_batch (fun _ _ => false) (fun _ => 3) (fun _ => "ts") ["a", "b"] 1 5 0).1.total = 2 ∧
    (send_batch (fun _ _ => false) (fun _ => 3) (fun _ => "ts") ["a", "b"] 1 5 0).1.skipped =
      0 := by
  have h := send_batch_summary_invariants (fun _ _ => false) (fun _ => 3) (fun _ => "ts")
    ["a", "b"] 1 5 0
  exact ⟨h.1, h.2.2.1⟩

/-- Witness for C2: success on the 3rd attempt gives waits 60 and 120;
four failed attempts give waits 60, 120, 240; an exhausted recipient is
recorded as failed. -/
theorem send_batch_backoff_schedule_witness :
    tryRecipient (fun j => decide (j = 2)) 4 = (true, [60, 120]) ∧
    tryRecipient (fun _ => false) 3 = (false, [60, 120, 240]) ∧
    (send_batch (fun _ _ => false) (fun _ => 2) (fun _ => "ts") ["a"] 1 2 1).1.details[0]? =
      some ⟨"ts", "a", "failed"⟩ := by
  obtain ⟨h1, h2, h3⟩ := send_batch_backoff_schedule
  refine ⟨?_, ?_, ?_⟩
  · have h := h1 (fun j => decide (j = 2)) 4 3 (by omega) (by omega)
      (fun j hj => by simp; omega) (by simp)
    rw [h]
    decide
  · have h := h2 (fun _ => false) 3 (fun j _ => rfl)
    rw [h]
    decide
  · exact h3 (fun _ _ => false) (fun _ => 2) (fun _ => "ts") ["a"] 1 2 1 0 "a" rfl
      (fun j _ => rfl)

/-- Witness for C3 at a three-recipient batch with constant draws. -/
theorem send_batch_inter_recipient_delays_witness :
    List.filterMap interOf
        (send_batch (fun _ _ => true) (fun _ => 7) (fun _ => "ts") ["a", "b", "c"] 5 10 2).2 =
      [(0, 7), (1, 7)] := by
  have h := send_batch_inter_recipient_delays (fun _ _ => true) (fun _ => 7) (fun _ => "ts")
    ["a", "b", "c"] 5 10 2 (by decide) (by decide) (fun _ => ⟨by norm_num, by norm_num⟩)
  rw [h.1]
  decide

/-- Witness for C4 with a held, valid token and an invalid-token first
response. -/
theorem send_email_invalid_token_single_retry_witness :
    (send_email ⟨"t", "c", "s", "m", some "tok", some 100000⟩ 0 .exn
        (.resp 401 .invalidToken) (.ok "tok2") (.resp 202 .notInvalid)).reAuths = 1 ∧
    (send_email ⟨"t", "c", "s", "m", some "tok", some 100000⟩ 0 .exn
        (.resp 401 .invalidToken) (.ok "tok2") (.resp 202 .notInvalid)).tokensUsed =
      ["tok", "tok2"] ∧
    (send_email ⟨"t", "c", "s", "m", some "tok", some 100000⟩ 0 .exn
        (.resp 401 .invalidToken) .noToken .exn).ok = false ∧
    (send_email ⟨"t", "c", "s", "m", some "tok", some 100000⟩ 0 .exn
        (.resp 500 .notInvalid) .exn .exn).reAuths = 0 ∧
    tryRecipient (fun _ => true) 3 = (true, []) := by
  obtain ⟨h1, h2, h3⟩ := send_email_invalid_token_single_retry
  refine ⟨?_, ?_, ?_, ?_, ?_⟩
  · exact (h1 ⟨"t", "c", "s", "m", some "tok", some 100000⟩ 0 .exn (.ok "tok2")
      (.resp 202 .notInvalid) "tok" rfl (by decide)).2.1
  · exact (h1 ⟨"t", "c", "s", "m", some "tok", some 100000⟩ 0 .exn (.ok "tok2")
      (.resp 202 .notInvalid) "tok" rfl (by decide)).2.2.1 "tok2" rfl
  · exact ((h1 ⟨"t", "c", "s", "m", some "tok", some 100000⟩ 0 .exn .noToken .exn "tok" rfl
      (by decide)).2.2.2 (Or.inl rfl)).1
  · exact (h2 ⟨"t", "c", "s", "m", some "tok", some 100000⟩ 0 .exn .exn
      (.resp 500 .notInvalid) .exn (by decide) (by decide)).1
  · exact h3 (fun _ => true) 3 rfl

/-- Witness for C5: a missing token, successful authentication and an
accepted first request give a `true` return. -/
theorem send_email_success_iff_witness :
    (send_email ⟨"t", "c", "s", "m", none, none⟩ 0 (.ok "tok") (.resp 202 .notInvalid)
        .exn .exn).ok = true := by
  rw [send_email_success_iff]
  exact ⟨Or.inr ⟨"tok", rfl⟩, Or.inl ⟨.notInvalid, rfl⟩⟩

/-- Witness for C6: a failed exchange leaves the stored token and
expiry unchanged; a successful one stores the new token with a
55-minute expiry. -/
theorem authenticate_failure_atomic_witness :
    (authenticate ⟨"t", "c", "s", "m", some "old", some 9⟩ 0 .noToken).2 =
      ⟨"t", "c", "s", "m", some "old", some 9⟩ ∧
    (authenticate ⟨"t", "c", "s", "m", none, none⟩ 7 (.ok "new")).2 =
      ⟨"t", "c", "s", "m", some "new", some (7 + 55 * 60)⟩ := by
  refine ⟨(authenticate_failure_atomic ⟨"t", "c", "s", "m", some "old", some 9⟩ 0
    .noToken).1 rfl, ?_⟩
  obtain ⟨t, ht, hst⟩ := (authenticate_failure_atomic ⟨"t", "c", "s", "m", none, none⟩ 7
    (.ok "new")).2 rfl
  cases ht
  exact hst

/-- Witness for C7: pass-through on parse failure and structural
identity on an already-clean document. -/
theorem sanitize_html_removes_script_style_witness :
    sanitize_html "<oops" none = "<oops" ∧
    containsTag "script"
      (decomposeScriptStyle [Html.elem "p" [] [Html.text "Hi"]]) = false ∧
    decomposeScriptStyle [Html.elem "p" [] [Html.text "Hi"]] =
      [Html.elem "p" [] [Html.text "Hi"]] := by
  obtain ⟨h1, h2, -⟩ := sanitize_html_removes_script_style
  refine ⟨h1 "<oops", (h2 "" [Html.elem "p" [] [Html.text "Hi"]]).2.1, ?_⟩
  exact (h2 "" [Html.elem "p" [] [Html.text "Hi"]]).2.2.2 (by simp [containsTag])
    (by simp [containsTag])

/-- Witness for C8: the scenario data URI, processed with an empty
attachment list, yields the `image_1` identifier on both sides. -/
theorem extract_inline_images_data_uri_witness :
    processImgSrc (fun _ => none) [] "data:image/png;base64,QUJD" =
      ("cid:image_1@example.com",
       [{ odata_type := "#microsoft.graph.fileAttachment", name := "image_1",
          contentType := "image/png", contentBytes := "QUJD", isInline := true,
          contentId := "image_1@example.com" }]) := by
  have h := (extract_inline_images_data_uri).1 (fun _ => none) []
    "data:image/png;base64,QUJD" "image/png" "QUJD" (extract_inline_images_data_uri).2.1
  rw [h]
  decide

/-- Witness for C10: a non-image data URI is left untouched and adds no
attachment. -/
theorem extract_inline_images_skips_nonmatching_data_uri_witness :
    processImgSrc (fun _ => none) [] "data:text/plain;base64,QUJD" =
      ("data:text/plain;base64,QUJD", []) := by
  exact (extract_inline_images_skips_nonmatching_data_uri).1 (fun _ => none) []
    "data:text/plain;base64,QUJD" (by decide) (by decide)
